import Mathlib

/-!
Shallow embedding of the nlprule Python binding facade
(`src/bindings/python/src/lib.rs`) and proofs about its contract.

The facade wraps three external collaborators (the tokenizer pipeline
`finalize ∘ disambiguate ∘ tokenize`, the rule engine `Rules::apply`, and
the user-supplied sentence splitter).  Those collaborators live outside
this file's source and are passed as explicit function parameters, so every
theorem quantifies over their behaviour.  Host-runtime reflection
(`hasattr("__iter__")` / `isinstance(PyString)`) is embedded as an already
dispatched input type `PyIn` with a scalar and an iterable constructor.
Rust `usize` values are embedded as `Nat` (suggestion offsets never wrap in
practice and the source performs no wrapping arithmetic on them).
-/

/-- Decompressed artifact payloads, embedded as byte lists. -/
abbrev Bytes := List Nat

/-- Result of running a Rust function that may return `Ok`, return a
`PyErr` (`PyValueError` carrying a message), or panic (`expect` /
out-of-bounds indexing). -/
inductive RunResult (α : Type) where
  | ok (value : α)
  | err (msg : String)
  | panic (msg : String)
deriving DecidableEq, Repr

/-- Filesystem operations used by `get_resource`, passed in explicitly:
`fs::read` (readable file contents, `none` when the read fails),
`fs::create_dir_all` and `fs::write` (both may fail with an IO error that
`?` converts into a `PyErr` message). -/
structure FsOps where
  readFile : String → Option Bytes
  createDirAll : String → Except String Unit
  writeFile : String → Bytes → Except String Unit

/-- `path.parent()` for the slash-joined cache path strings built by
`get_resource`: drop the last path component. -/
def parentDir (p : String) : String :=
  String.intercalate "/" (p.splitOn "/").dropLast

/-- The fetch URL `https://github.com/bminixhofer/nlprule/raw/<version>/storage/<code>/<name>`. -/
def resourceUrl (version code name : String) : String :=
  "https://github.com/bminixhofer/nlprule/raw/" ++ version ++ "/storage/" ++ code ++ "/" ++ name

/-- Rust's `name.strip_suffix(".gz")`: `some` of the name without its
final `.gz` when it ends in `.gz`, `none` otherwise.  Implemented over the
codepoint list so it evaluates inside the kernel. -/
def strip_gz_suffix (name : String) : Option String :=
  if 3 ≤ name.data.length ∧ name.data.drop (name.data.length - 3) = ['.', 'g', 'z'] then
    some ⟨name.data.take (name.data.length - 3)⟩
  else none

/-- Embedding of `get_resource` (lib.rs lines 20-64).  `cacheDir` is the
`directories::ProjectDirs` cache root when one was found; `httpGet` is
`reqwest::blocking::get(url).and_then(|x| x.bytes())`; `gunzip` is the
`GzDecoder` run, `none` on decompression failure (the source panics there
via `expect`).  Mirrors the source's control flow exactly: cache-path
construction (panicking when `name` lacks the `.gz` suffix), cache read,
fetch, gunzip, then `create_dir_all(...)?` and `write(...)?` whose errors
propagate via `?`, and finally returning the decompressed buffer. -/
def get_resource (version code name : String) (cacheDir : Option String)
    (httpGet : String → Except String Bytes) (gunzip : Bytes → Option Bytes)
    (fs : FsOps) : RunResult Bytes :=
  -- try to find a file at which to cache the data
  let cache_path? : RunResult (Option String) :=
    match cacheDir with
    | none => .ok none
    | some dir =>
      match strip_gz_suffix name with
      | some stem => .ok (some (dir ++ "/" ++ version ++ "/" ++ code ++ "/" ++ stem))
      | none => .panic "resource name must have .gz ending."
  match cache_path? with
  | .panic m => .panic m
  | .err m => .err m
  | .ok cache_path =>
    -- if the file can be read, the data is already cached
    match cache_path.bind fs.readFile with
    | some bytes => .ok bytes
    | none =>
      -- ... otherwise, request the data from the URL ...
      match httpGet (resourceUrl version code name) with
      | .error e => .err e
      | .ok bytes =>
        match gunzip bytes with
        | none => .panic "gunzipping failed"
        | some buffer =>
          -- ... and then cache the data at the provided file, if one was found
          match cache_path with
          | none => .ok buffer
          | some path =>
            match fs.createDirAll (parentDir path) with
            | .error e => .err e
            | .ok _ =>
              match fs.writeFile path buffer with
              | .error e => .err e
              | .ok _ => .ok buffer

/-- A facade input after the host-runtime scalar/iterable dispatch:
either one string or an iterable of strings (already extracted, in
order). -/
inductive PyIn where
  | scalar (s : String)
  | iterable (xs : List String)

/-- A facade output: a single element (scalar input) or a list parallel to
the input (iterable input). -/
inductive PyOut (O : Type) where
  | single (o : O)
  | list (os : List O)
deriving DecidableEq, Repr

/-- Result of a guarded facade call: `Ok`, a raised `PyErr`, or a panic
(`output[0]` on an empty vector). -/
inductive GuardResult (O : Type) where
  | ok (o : PyOut O)
  | err (msg : String)
  | panic
deriving DecidableEq, Repr

/-- The `for`/`push` loop with `?` inside `sentence_guard` / `text_guard`:
apply `f` to each element in order, collecting results, propagating the
first error. -/
def collectResults {α O : Type} (f : α → Except String O) : List α → Except String (List O)
  | [] => .ok []
  | x :: xs =>
    match f x with
    | .error e => .error e
    | .ok o =>
      match collectResults f xs with
      | .error e => .error e
      | .ok os => .ok (o :: os)

/-- Embedding of `sentence_guard` (lib.rs lines 66-92): wrap a scalar into
a one-element batch, run `f` on every sentence, and return a list for
iterable input or element `0` for scalar input (indexing panics on an
empty output vector). -/
def sentence_guard {O : Type} (input : PyIn) (f : String → Except String O) : GuardResult O :=
  let is_iterable := match input with | .scalar _ => false | .iterable _ => true
  let sentences : List String := match input with | .scalar s => [s] | .iterable xs => xs
  match collectResults f sentences with
  | .error e => .err e
  | .ok output =>
    if is_iterable then .ok (.list output)
    else
      match output with
      | o :: _ => .ok (.single o)
      | [] => .panic

/-- Embedding of `text_guard` (lib.rs lines 94-137): like
`sentence_guard`, but requires a sentence splitter (raising a
`PyValueError` naming `sentence_equivalent_name` when it is absent) and
runs `f` once per inner sentence list the splitter returns. -/
def text_guard {O : Type} (input : PyIn)
    (sentence_splitter : Option (List String → List (List String)))
    (sentence_equivalent_name : String)
    (f : List String → Except String O) : GuardResult O :=
  let is_iterable := match input with | .scalar _ => false | .iterable _ => true
  let texts : List String := match input with | .scalar s => [s] | .iterable xs => xs
  match sentence_splitter with
  | some splitter =>
    match collectResults f (splitter texts) with
    | .error e => .err e
    | .ok output =>
      if is_iterable then .ok (.list output)
      else
        match output with
        | o :: _ => .ok (.single o)
        | [] => .panic
  | none =>
    .err ("sentence_splitter must be set. Use " ++ sentence_equivalent_name
      ++ " to correct one sentence.")

/-- The scan loop body of `SplitOn::__call__` (lib.rs lines 170-184) on one
text.  Byte slices at codepoint boundaries are embedded as codepoint
(`Char`) lists; `acc` is the pending slice `text[last_cut..i]`.  Whenever a
split char is reached the slice up to and including it is emitted; after
the scan a nonempty remainder (`start != text.len()`) is emitted. -/
def splitOnGo (split_chars : List Char) (acc : List Char) : List Char → List (List Char)
  | [] => if acc.isEmpty then [] else [acc]
  | c :: rest =>
    if split_chars.contains c then
      (acc ++ [c]) :: splitOnGo split_chars [] rest
    else
      splitOnGo split_chars (acc ++ [c]) rest

/-- `SplitOn::__call__` on one text. -/
def splitOnText (split_chars : List Char) (text : List Char) : List (List Char) :=
  splitOnGo split_chars [] text

/-- Embedding of `SplitOn::__call__` (lib.rs lines 166-190): split every
text of the batch on the configured single-codepoint split characters. -/
def splitOnCall (split_chars : List Char) (texts : List (List Char)) : List (List (List Char)) :=
  texts.map (splitOnText split_chars)

/-- One morphological analysis entry: a `(lemma, POS)` pair (`WordData` of
the external core; the field `lemma` is spelled `lemma_` because `lemma`
is a Lean command). -/
structure WordData where
  lemma_ : String
  pos : String
deriving DecidableEq, Repr

/-- `token.word`: surface text plus its analysis entries (order and
duplicates as produced by the tagger). -/
structure Word where
  text : String
  tags : List WordData
deriving DecidableEq, Repr

/-- A finalized token of the external pipeline, with the fields the
binding reads: `word`, the half-open sentence-local `char_span`, and the
shallow-parse `chunks`. -/
structure Token where
  word : Word
  char_span : Nat × Nat
  chunks : List String
deriving DecidableEq, Repr

/-- `PyToken::span` getter (lib.rs lines 243-246): the token's
sentence-local character span, returned as-is. -/
def pyToken_span (token : Token) : Nat × Nat :=
  token.char_span

/-- `PyToken::data` getter (lib.rs lines 248-256): the raw
`(lemma, POS)` pairs, order and duplicates preserved. -/
def pyToken_data (token : Token) : List (String × String) :=
  token.word.tags.map fun x => (x.lemma_, x.pos)

/-- Rust's `Vec::dedup`: remove consecutive duplicate elements. -/
def dedupAdjacent {α : Type} [DecidableEq α] : List α → List α
  | [] => []
  | [a] => [a]
  | a :: b :: rest =>
    if a = b then dedupAdjacent (b :: rest)
    else a :: dedupAdjacent (b :: rest)

/-- `PyToken::lemmas` getter (lib.rs lines 258-276): the non-empty lemmas,
sorted and deduplicated.  `sort_unstable` is embedded as insertion sort:
any comparison sort yields the same sorted list of `String`s because equal
keys are identical strings. -/
def pyToken_lemmas (token : Token) : List String :=
  dedupAdjacent (List.insertionSort (· ≤ ·)
    (token.word.tags.filterMap fun x => if x.lemma_.isEmpty then none else some x.lemma_))

/-- `PyToken::tags` getter (lib.rs lines 278-296): the non-empty POS tags,
sorted and deduplicated. -/
def pyToken_tags (token : Token) : List String :=
  dedupAdjacent (List.insertionSort (· ≤ ·)
    (token.word.tags.filterMap fun x => if x.pos.isEmpty then none else some x.pos))

/-- A rule-engine suggestion: half-open character span plus the ordered
replacement candidates.  The Rust field `end` is spelled `stop` because
`end` is a Lean keyword. -/
structure Suggestion where
  start : Nat
  stop : Nat
  text : List String
deriving DecidableEq, Repr

/-- The per-suggestion rebase inside `PyRules::suggest`:
`x.start += offset; x.end += offset`. -/
def shiftSuggestion (offset : Nat) (x : Suggestion) : Suggestion :=
  { x with start := x.start + offset, stop := x.stop + offset }

/-- The sentence loop of `PyRules::suggest` (lib.rs lines 490-507):
`applyRules` stands for the external composition
`rules.apply(&finalize(tokenizer.disambiguate(tokenizer.tokenize(sentence))))`.
Each sentence's suggestions are shifted by the running `offset`, which then
grows by `sentence.chars().count()` (the sentence's codepoint count,
`String.length` here). -/
def suggestLoop (applyRules : String → List Suggestion) :
    Nat → List String → List Suggestion
  | _, [] => []
  | offset, sentence :: rest =>
    ((applyRules sentence).map (shiftSuggestion offset))
      ++ suggestLoop applyRules (offset + sentence.length) rest

/-- Modelled from the spec: `Rules::correct` lives in the external
`nlprule_core` crate, not under the binding sources.  Per §4.D, the
rewrite walks the sentence with a cursor, copies the characters up to each
suggestion's span, substitutes the suggestion's first (best) replacement
for the span, and moves the cursor past the span; the remainder after the
last suggestion is copied verbatim.  `pos` is the cursor. -/
def applySuggestions (chars : List Char) : Nat → List Suggestion → List Char
  | pos, [] => chars.drop pos
  | pos, sg :: rest =>
    ((chars.drop pos).take (sg.start - pos)) ++ (sg.text.headD "").data
      ++ applySuggestions chars sg.stop rest

/-- Modelled from the spec: the external `Rules::correct(sentence,
suggestions)` — rewrite `sentence` by replacing each suggested span with
its first replacement, in span order (spec §4.D). -/
def rulesCorrect (sentence : String) (suggestions : List Suggestion) : String :=
  ⟨applySuggestions sentence.data 0 suggestions⟩

/-- `PyTokenizer::tokenize` (lib.rs lines 380-404).  `pipeline` stands for
the external `finalize(tokenizer.disambiguate(tokenizer.tokenize(s)))`;
the per-sentence token lists are extended into one output vector.  Note
the source passes `".apply_sentence"` as the sentence-equivalent name. -/
def pyTokenizer_tokenize (sentence_splitter : Option (List String → List (List String)))
    (pipeline : String → List Token) (input : PyIn) : GuardResult (List Token) :=
  text_guard input sentence_splitter ".apply_sentence" fun sentences =>
    .ok (List.flatten (sentences.map pipeline))

/-- `PyTokenizer::tokenize_sentence` (lib.rs lines 406-417). -/
def pyTokenizer_tokenize_sentence (pipeline : String → List Token) (input : PyIn) :
    GuardResult (List Token) :=
  sentence_guard input fun sentence => .ok (pipeline sentence)

/-- `PyRules::suggest_sentence` (lib.rs lines 464-477): sentence-local
suggestions, no rebasing. -/
def pyRules_suggest_sentence (applyRules : String → List Suggestion) (input : PyIn) :
    GuardResult (List Suggestion) :=
  sentence_guard input fun sentence => .ok (applyRules sentence)

/-- `PyRules::suggest` (lib.rs lines 479-512): full-text suggestions with
per-sentence offset rebasing. -/
def pyRules_suggest (sentence_splitter : Option (List String → List (List String)))
    (applyRules : String → List Suggestion) (input : PyIn) : GuardResult (List Suggestion) :=
  text_guard input sentence_splitter ".suggest_sentence" fun sentences =>
    .ok (suggestLoop applyRules 0 sentences)

/-- `PyRules::correct_sentence` (lib.rs lines 514-524): apply the rules to
the sentence and rewrite it with `Rules::correct`. -/
def pyRules_correct_sentence (applyRules : String → List Suggestion) (input : PyIn) :
    GuardResult String :=
  sentence_guard input fun sentence =>
    .ok (rulesCorrect sentence (applyRules sentence))

/-- `PyRules::correct` (lib.rs lines 526-548): rewrite every sentence and
join the rewritten sentences with the empty separator. -/
def pyRules_correct (sentence_splitter : Option (List String → List (List String)))
    (applyRules : String → List Suggestion) (input : PyIn) : GuardResult String :=
  text_guard input sentence_splitter ".correct_sentence" fun sentences =>
    .ok (String.join (sentences.map fun x => rulesCorrect x (applyRules x)))

/-! ## Helper lemmas -/

/-- The slices emitted by the `SplitOn` scan concatenate back to the
pending slice followed by the unscanned remainder. -/
theorem splitOnGo_flatten (split_chars : List Char) :
    ∀ (text acc : List Char), List.flatten (splitOnGo split_chars acc text) = acc ++ text := by
  intro text
  induction text with
  | nil =>
    intro acc
    cases acc <;> simp [splitOnGo]
  | cons c rest ih =>
    intro acc
    by_cases h : c ∈ split_chars <;>
      simp [splitOnGo, h, ih]

/-- `Rules::correct` with no suggestions copies the sentence verbatim. -/
theorem rulesCorrect_nil (s : String) : rulesCorrect s [] = s := by
  cases s with
  | mk data => simp [rulesCorrect, applySuggestions]

/-- A successful guard loop produces one output per input. -/
theorem collectResults_length {α O : Type} (f : α → Except String O) :
    ∀ {xs : List α} {os : List O}, collectResults f xs = .ok os → os.length = xs.length := by
  intro xs
  induction xs with
  | nil =>
    intro os h
    simp [collectResults] at h
    simp [← h]
  | cons x xs ih =>
    intro os h
    simp only [collectResults] at h
    cases hfx : f x with
    | error e => rw [hfx] at h; exact absurd h (by simp)
    | ok o =>
      rw [hfx] at h
      cases hrec : collectResults f xs with
      | error e => rw [hrec] at h; exact absurd h (by simp)
      | ok os' =>
        rw [hrec] at h
        cases h
        simp [ih hrec]

/-- A successful guard loop maps the `i`-th input to the `i`-th output. -/
theorem collectResults_get {α O : Type} (f : α → Except String O) :
    ∀ {xs : List α} {os : List O}, collectResults f xs = .ok os →
      ∀ (i : Nat) (h1 : i < xs.length) (h2 : i < os.length),
        f (xs.get ⟨i, h1⟩) = .ok (os.get ⟨i, h2⟩) := by
  intro xs
  induction xs with
  | nil =>
    intro os h i h1 h2
    exact absurd h1 (by simp)
  | cons x xs ih =>
    intro os h i h1 h2
    simp only [collectResults] at h
    cases hfx : f x with
    | error e => rw [hfx] at h; exact absurd h (by simp)
    | ok o =>
      rw [hfx] at h
      cases hrec : collectResults f xs with
      | error e => rw [hrec] at h; exact absurd h (by simp)
      | ok os' =>
        rw [hrec] at h
        cases h
        cases i with
        | zero => simpa using hfx
        | succ j =>
          exact ih hrec j (by simpa using h1) (by simpa using h2)

/-- `Vec::dedup` only removes elements, so its output is a sublist. -/
theorem dedupAdjacent_sublist {α : Type} [DecidableEq α] :
    ∀ (l : List α), (dedupAdjacent l).Sublist l
  | [] => by simp [dedupAdjacent]
  | [a] => by simp [dedupAdjacent]
  | a :: b :: rest => by
    have ih := dedupAdjacent_sublist (b :: rest)
    by_cases h : a = b
    · simpa [dedupAdjacent, h] using ih.cons a
    · simpa [dedupAdjacent, h] using ih.cons₂ a

/-- On a `≤`-sorted list, removing adjacent duplicates leaves a strictly
increasing list. -/
theorem dedupAdjacent_sorted_lt {α : Type} [DecidableEq α] [LinearOrder α] :
    ∀ (l : List α), l.Sorted (· ≤ ·) → (dedupAdjacent l).Sorted (· < ·)
  | [], _ => by simp [dedupAdjacent]
  | [a], _ => by simp [dedupAdjacent]
  | a :: b :: rest, h => by
    rw [List.sorted_cons] at h
    obtain ⟨ha, hrest⟩ := h
    have ih := dedupAdjacent_sorted_lt (b :: rest) hrest
    by_cases hab : a = b
    · simpa [dedupAdjacent, hab] using ih
    · have hd : dedupAdjacent (a :: b :: rest) = a :: dedupAdjacent (b :: rest) := by
        simp [dedupAdjacent, hab]
      rw [hd, List.sorted_cons]
      refine ⟨?_, ih⟩
      intro x hx
      have hxmem : x ∈ b :: rest := (dedupAdjacent_sublist (b :: rest)).subset hx
      have hab' : a < b := lt_of_le_of_ne (ha b (by simp)) hab
      rcases List.mem_cons.mp hxmem with rfl | hxr
      · exact hab'
      · rw [List.sorted_cons] at hrest
        exact lt_of_lt_of_le hab' (hrest.1 x hxr)

/-- Unrolling the `PyRules::suggest` loop: the suggestions contributed by
sentence `i` are the sentence-local suggestions shifted by the initial
offset plus the total codepoint count of the sentences before `i`. -/
theorem suggestLoop_eq (applyRules : String → List Suggestion) :
    ∀ (sentences : List String) (offset : Nat),
      suggestLoop applyRules offset sentences =
        ((List.range sentences.length).map fun i =>
          (applyRules (sentences.getD i "")).map
            (shiftSuggestion (offset + (((sentences.take i).map String.length).sum)))).flatten := by
  intro sentences
  induction sentences with
  | nil => intro offset; simp [suggestLoop]
  | cons s rest ih =>
    intro offset
    have hhead : (applyRules ((s :: rest).getD 0 "")).map
        (shiftSuggestion (offset + ((((s :: rest).take 0).map String.length).sum)))
        = (applyRules s).map (shiftSuggestion offset) := by simp
    have htail : (List.map ((fun i => (applyRules ((s :: rest).getD i "")).map
          (shiftSuggestion (offset + ((((s :: rest).take i).map String.length).sum)))) ∘ Nat.succ)
          (List.range rest.length)).flatten
        = suggestLoop applyRules (offset + s.length) rest := by
      rw [ih (offset + s.length)]
      refine congrArg List.flatten (List.map_congr_left ?_)
      intro i _
      simp only [Function.comp_apply, List.getD_cons_succ, List.take_succ_cons, List.map_cons,
        List.sum_cons, Nat.add_assoc]
    rw [List.length_cons, List.range_succ_eq_map, List.map_cons, List.flatten_cons, List.map_map,
      hhead, htail]
    rfl

/-! ## Claim theorems -/

/-- C5: for every text `t` and every `SplitOn` splitter configured with
single-codepoint chars `C`, the concatenation of the sentence slices
returned by `SplitOn(C)` equals `t` exactly (for every text of any batch),
and the empty text yields an empty sentence list. -/
theorem splitOn_round_trip (C : List Char) (texts : List (List Char)) :
    (splitOnCall C texts).map List.flatten = texts ∧ splitOnCall C [[]] = [[]] := by
  constructor
  · rw [splitOnCall, List.map_map]
    have h : ∀ t ∈ texts, (List.flatten ∘ splitOnText C) t = id t := by
      intro t _
      exact splitOnGo_flatten C t []
    rw [List.map_congr_left h, List.map_id]
  · rfl

/-- C7: when the rule engine produces no suggestions for sentence `s`,
`Rules.correct_sentence(s)` returns `s` unchanged. -/
theorem correct_sentence_identity_on_empty (applyRules : String → List Suggestion) (s : String)
    (h : applyRules s = []) :
    pyRules_correct_sentence applyRules (.scalar s) = .ok (.single s) := by
  simp [pyRules_correct_sentence, sentence_guard, collectResults, h, rulesCorrect_nil]

/-- Witness for `correct_sentence_identity_on_empty` at the spec's S3
scenario sentence. -/
theorem correct_sentence_identity_on_empty_witness :
    pyRules_correct_sentence (fun _ => []) (.scalar "The sky is blue.")
      = .ok (.single "The sky is blue.") :=
  correct_sentence_identity_on_empty (fun _ => []) "The sky is blue." rfl

/-- C10: a scalar full-text call (`tokenize`, `suggest`, `correct`) whose
configured splitter returns an empty outer list panics (indexing
`output[0]` of an empty vector) instead of returning an error. -/
theorem full_text_empty_split_panics (sp : List String → List (List String))
    (pipeline : String → List Token) (applyRules : String → List Suggestion)
    (t : String) (h : sp [t] = []) :
    pyTokenizer_tokenize (some sp) pipeline (.scalar t) = .panic ∧
    pyRules_suggest (some sp) applyRules (.scalar t) = .panic ∧
    pyRules_correct (some sp) applyRules (.scalar t) = .panic := by
  refine ⟨?_, ?_, ?_⟩ <;>
    simp [pyTokenizer_tokenize, pyRules_suggest, pyRules_correct, text_guard, h, collectResults]

/-- Witness for `full_text_empty_split_panics` with a concrete splitter
that returns no sentence lists. -/
theorem full_text_empty_split_panics_witness :
    pyTokenizer_tokenize (some fun _ => []) (fun _ => []) (.scalar "Hello.") = .panic ∧
    pyRules_suggest (some fun _ => []) (fun _ => []) (.scalar "Hello.") = .panic ∧
    pyRules_correct (some fun _ => []) (fun _ => []) (.scalar "Hello.") = .panic :=
  full_text_empty_split_panics (fun _ => []) (fun _ => []) (fun _ => []) "Hello." rfl

set_option maxRecDepth 40000 in
/-- C2 (code bug): `Tokenizer.tokenize` without a splitter raises the
configuration error, but the recovery path named in its message is
`.apply_sentence` — a method that does not exist — and the message does
not mention `.tokenize_sentence`. -/
theorem tokenize_missing_splitter_message (pipeline : String → List Token) :
    pyTokenizer_tokenize none pipeline (.scalar "Hello.")
      = .err "sentence_splitter must be set. Use .apply_sentence to correct one sentence." ∧
    ¬ (".tokenize_sentence".data <:+:
        "sentence_splitter must be set. Use .apply_sentence to correct one sentence.".data) := by
  constructor
  · rfl
  · decide

/-- C1 counterexample: with a cache miss, a successful fetch and gunzip,
and a failing cache write, `get_resource` propagates the write error
instead of returning the decompressed bytes `[1, 2, 3]`. -/
theorem get_resource_swallows_write_error_cex :
    get_resource "0.3.0" "en" "rules.bin.gz" (some "/cache")
        (fun _ => .ok [31, 139]) (fun _ => some [1, 2, 3])
        ⟨fun _ => none, fun _ => .ok (), fun _ _ => .error "disk full"⟩
      = .err "disk full" ∧
    get_resource "0.3.0" "en" "rules.bin.gz" (some "/cache")
        (fun _ => .ok [31, 139]) (fun _ => some [1, 2, 3])
        ⟨fun _ => none, fun _ => .ok (), fun _ _ => .error "disk full"⟩
      ≠ .ok [1, 2, 3] := by
  constructor
  · rfl
  · decide

/-- C1 amended: after a successful fetch and gunzip, a failure of either
cache-write step — `fs::create_dir_all` on the parent directory or
`fs::write` of the file — is fatal: the `?` operator propagates it as an
error to the caller and the decompressed bytes are not returned. -/
theorem get_resource_write_error_fatal (version code name stem dir : String)
    (httpGet : String → Except String Bytes) (gunzip : Bytes → Option Bytes)
    (fs : FsOps) (bytes buffer : Bytes) (e : String)
    (hgz : strip_gz_suffix name = some stem)
    (hread : fs.readFile (dir ++ "/" ++ version ++ "/" ++ code ++ "/" ++ stem) = none)
    (hget : httpGet (resourceUrl version code name) = .ok bytes)
    (hunzip : gunzip bytes = some buffer)
    (hfail : fs.createDirAll
        (parentDir (dir ++ "/" ++ version ++ "/" ++ code ++ "/" ++ stem)) = .error e ∨
      (fs.createDirAll
        (parentDir (dir ++ "/" ++ version ++ "/" ++ code ++ "/" ++ stem)) = .ok () ∧
       fs.writeFile (dir ++ "/" ++ version ++ "/" ++ code ++ "/" ++ stem) buffer = .error e)) :
    get_resource version code name (some dir) httpGet gunzip fs = .err e := by
  rcases hfail with hdir | ⟨hdir, hwrite⟩
  · simp [get_resource, hgz, hread, hget, hunzip, hdir]
  · simp [get_resource, hgz, hread, hget, hunzip, hdir, hwrite]

/-- Witness for `get_resource_write_error_fatal`, exercising the
`create_dir_all`-failure branch (the counterexample already exercises the
`write`-failure branch concretely). -/
theorem get_resource_write_error_fatal_witness :
    get_resource "0.3.0" "en" "tokenizer.bin.gz" (some "/cache")
        (fun _ => .ok [31, 139]) (fun _ => some [1, 2, 3])
        ⟨fun _ => none, fun _ => .error "read-only filesystem", fun _ _ => .ok ()⟩
      = .err "read-only filesystem" :=
  get_resource_write_error_fatal "0.3.0" "en" "tokenizer.bin.gz" "tokenizer.bin" "/cache"
    (fun _ => .ok [31, 139]) (fun _ => some [1, 2, 3])
    ⟨fun _ => none, fun _ => .error "read-only filesystem", fun _ _ => .ok ()⟩
    [31, 139] [1, 2, 3] "read-only filesystem" (by decide) rfl rfl rfl (Or.inl rfl)

/-- C4: `Rules.correct(t)` on a scalar text is exactly the concatenation,
with no separator, of the per-sentence rewrites over the sentences the
splitter returns for `t` — and `Rules.correct_sentence` computes exactly
that per-sentence rewrite. -/
theorem correct_full_text_concat (applyRules : String → List Suggestion)
    (sp : List String → List (List String)) (t : String) (sents : List String)
    (h : sp [t] = [sents]) :
    pyRules_correct (some sp) applyRules (.scalar t)
      = .ok (.single (String.join (sents.map fun s => rulesCorrect s (applyRules s)))) ∧
    ∀ s : String, pyRules_correct_sentence applyRules (.scalar s)
      = .ok (.single (rulesCorrect s (applyRules s))) := by
  constructor
  · simp [pyRules_correct, text_guard, h, collectResults]
  · intro s
    simp [pyRules_correct_sentence, sentence_guard, collectResults]

/-- Witness for `correct_full_text_concat` with a concrete splitter and a
rule engine that never fires. -/
theorem correct_full_text_concat_witness :
    pyRules_correct (some fun _ => [["a.", " b"]]) (fun _ => []) (.scalar "a. b")
      = .ok (.single (String.join (["a.", " b"].map
          fun s => rulesCorrect s ((fun _ => ([] : List Suggestion)) s)))) :=
  (correct_full_text_concat (fun _ => []) (fun _ => [["a.", " b"]]) "a. b" ["a.", " b"] rfl).1

/-- C8: on the full-text path, `Tokenizer.tokenize` returns the
per-sentence token lists concatenated in document order; every token of
the per-sentence lists appears verbatim (its sentence-local `char_span`
untouched — no rebasing), and `tokenize_sentence` returns exactly those
per-sentence lists. -/
theorem tokenize_no_span_rebase (pipeline : String → List Token)
    (sp : List String → List (List String)) (t : String) (sents : List String)
    (h : sp [t] = [sents]) :
    pyTokenizer_tokenize (some sp) pipeline (.scalar t)
      = .ok (.single (List.flatten (sents.map pipeline))) ∧
    (∀ s : String, pyTokenizer_tokenize_sentence pipeline (.scalar s)
      = .ok (.single (pipeline s))) ∧
    ∀ tok ∈ List.flatten (sents.map pipeline),
      ∃ s ∈ sents, tok ∈ pipeline s ∧ pyToken_span tok = tok.char_span := by
  refine ⟨?_, ?_, ?_⟩
  · simp [pyTokenizer_tokenize, text_guard, h, collectResults]
  · intro s
    simp [pyTokenizer_tokenize_sentence, sentence_guard, collectResults]
  · intro tok htok
    rw [List.mem_flatten] at htok
    obtain ⟨l, hl, htl⟩ := htok
    rw [List.mem_map] at hl
    obtain ⟨s, hs, rfl⟩ := hl
    exact ⟨s, hs, htl, rfl⟩

/-- Witness for `tokenize_no_span_rebase` with a concrete one-token
pipeline and splitter. -/
theorem tokenize_no_span_rebase_witness :
    pyTokenizer_tokenize (some fun _ => [["Hi."]])
        (fun s => [⟨⟨s, []⟩, (0, s.length), []⟩]) (.scalar "Hi.")
      = .ok (.single (List.flatten (["Hi."].map
          fun s => [(⟨⟨s, []⟩, (0, s.length), []⟩ : Token)]))) :=
  (tokenize_no_span_rebase (fun s => [⟨⟨s, []⟩, (0, s.length), []⟩])
    (fun _ => [["Hi."]]) "Hi." ["Hi."] rfl).1

/-- C3: in `Rules.suggest`, the suggestions produced for sentence `i` are
exactly the sentence-local suggestions (the ones `suggest_sentence`
reports) with `start` and `end` increased by the sum of the codepoint
counts (`String.length`) of the sentences before `i`. -/
theorem suggest_offset_rebase (applyRules : String → List Suggestion)
    (sp : List String → List (List String)) (t : String) (sents : List String)
    (h : sp [t] = [sents]) :
    pyRules_suggest (some sp) applyRules (.scalar t)
      = .ok (.single (((List.range sents.length).map fun i =>
          (applyRules (sents.getD i "")).map
            (shiftSuggestion (((sents.take i).map String.length).sum))).flatten)) ∧
    ∀ s : String, pyRules_suggest_sentence applyRules (.scalar s)
      = .ok (.single (applyRules s)) := by
  constructor
  · have hloop := suggestLoop_eq applyRules sents 0
    simp only [Nat.zero_add] at hloop
    simp [pyRules_suggest, text_guard, h, collectResults, hloop]
  · intro s
    simp [pyRules_suggest_sentence, sentence_guard, collectResults]

/-- Witness for `suggest_offset_rebase` at the spec's S7 scenario:
text `"a. bb."` split into `["a.", " bb."]`, and a rule emitting one
suggestion at local span `[1, 2]` in every sentence; the second sentence's
copy lands at global span `[3, 4]`. -/
theorem suggest_offset_rebase_witness :
    pyRules_suggest (some fun _ => [["a.", " bb."]])
        (fun _ => [⟨1, 2, ["x"]⟩]) (.scalar "a. bb.")
      = .ok (.single (((List.range (["a.", " bb."] : List String).length).map fun i =>
          ((fun _ => [(⟨1, 2, ["x"]⟩ : Suggestion)]) ((["a.", " bb."] : List String).getD i ""))
            |>.map (shiftSuggestion ((((["a.", " bb."] : List String).take i).map
              String.length).sum))).flatten)) :=
  (suggest_offset_rebase (fun _ => [⟨1, 2, ["x"]⟩]) (fun _ => [["a.", " bb."]])
    "a. bb." ["a.", " bb."] rfl).1

/-- C6: both guards preserve the input shape for every operation body.
A scalar input yields a single element; an iterable input yields a list
with one output per input element, in input order (the `i`-th output comes
from the `i`-th element; for the full-text guard this relies on the
splitter interface returning one sentence list per text). -/
theorem guard_shape_preservation {O : Type} (f : String → Except String O)
    (g : List String → Except String O) (sp : List String → List (List String))
    (eqName : String) (xs : List String) (os : List O) (s : String) (o : O)
    (ts : List String) (os2 : List O) (t : String) (sents : List String) (o2 : O)
    (h1 : collectResults f xs = .ok os)
    (h2 : f s = .ok o)
    (hsp : (sp ts).length = ts.length)
    (h3 : collectResults g (sp ts) = .ok os2)
    (h4 : sp [t] = [sents])
    (h5 : g sents = .ok o2) :
    (sentence_guard (.iterable xs) f = .ok (.list os) ∧ os.length = xs.length ∧
      ∀ (i : Nat) (hi : i < xs.length) (hi2 : i < os.length),
        f (xs.get ⟨i, hi⟩) = .ok (os.get ⟨i, hi2⟩)) ∧
    sentence_guard (.scalar s) f = .ok (.single o) ∧
    (text_guard (.iterable ts) (some sp) eqName g = .ok (.list os2) ∧
      os2.length = ts.length) ∧
    text_guard (.scalar t) (some sp) eqName g = .ok (.single o2) := by
  refine ⟨⟨?_, ?_, ?_⟩, ?_, ⟨?_, ?_⟩, ?_⟩
  · simp [sentence_guard, h1]
  · exact collectResults_length f h1
  · exact collectResults_get f h1
  · simp [sentence_guard, collectResults, h2]
  · simp [text_guard, h3]
  · exact (collectResults_length g h3).trans hsp
  · simp [text_guard, h4, collectResults, h5]

/-- Witness for `guard_shape_preservation` with identity-like operation
bodies and a one-sentence-per-text splitter. -/
theorem guard_shape_preservation_witness :
    sentence_guard (.scalar "a") (fun x => Except.ok x) = .ok (.single "a") :=
  (guard_shape_preservation (fun x => Except.ok x) (fun l => Except.ok (String.join l))
    (fun l => l.map fun x => [x]) ".tokenize_sentence"
    ["a", "b"] ["a", "b"] "a" "a" ["u"] ["u"] "v" ["v"] "v"
    rfl rfl rfl rfl rfl rfl).2.1

/-- C9: `PyToken.data` exposes the raw `(lemma, POS)` pairs in order with
duplicates preserved, while each string in the `lemmas` and `tags`
projections appears at most once. -/
theorem token_projections (token : Token) :
    pyToken_data token = token.word.tags.map (fun x => (x.lemma_, x.pos)) ∧
    (pyToken_lemmas token).Nodup ∧ (pyToken_tags token).Nodup := by
  refine ⟨rfl, ?_, ?_⟩
  · unfold pyToken_lemmas
    exact (dedupAdjacent_sorted_lt _ (List.sorted_insertionSort _ _)).nodup
  · unfold pyToken_tags
    exact (dedupAdjacent_sorted_lt _ (List.sorted_insertionSort _ _)).nodup
